import Mathlib

/-!
Verification of the resize-filesystem decision engine of
`cloudinit/config/cc_resizefs.py` (cloud-init 0.7.9).

The Python module is shallowly embedded below.  Python strings are Lean
`String`s and character-level operations are modelled over `String.data`
(`List Char`), which matches Python's code-point view of `str` for the
ASCII texts this module manipulates.  External collaborators (`util.subp`
runs of `dumpfs` / `gpart`, `os.stat`, `os.access`, `util.get_mount_info`,
the container predicate, and the resize subprocess) are inputs to the
embedded functions.  Fallible Python code is embedded in `Except PyErr`.
-/

/-- The Python exception kinds that the embedded code can raise. -/
inductive PyErr where
  | getoptError
  | valueError
  | typeError
  | zeroDivisionError
  | attributeError
  | indexError
  | osError (errno : Nat)
  | processExecutionError
deriving DecidableEq, Repr

/-- Models Python `str.startswith`: prefix test on the code points. -/
def pyStartsWith (s p : String) : Bool :=
  p.data.isPrefixOf s.data

/-- Models Python `str.lower` on the ASCII strings this module handles. -/
def pyLower (s : String) : String :=
  String.mk (s.data.map Char.toLower)

/-- Models Python slicing `s[n:]` (a code-point count drop). -/
def pyDrop (s : String) (n : Nat) : String :=
  String.mk (s.data.drop n)

/-- Core of Python `str.split()` with no argument: split on whitespace
runs, discarding empty pieces.  `acc` holds the reversed current word. -/
def splitWsCore : List Char → List Char → List (List Char)
  | [], acc => if acc = [] then [] else [acc.reverse]
  | c :: cs, acc =>
    if c.isWhitespace then
      if acc = [] then splitWsCore cs [] else acc.reverse :: splitWsCore cs []
    else splitWsCore cs (c :: acc)

/-- Models Python `str.split()` (whitespace splitting, empties dropped). -/
def pySplit (s : String) : List String :=
  (splitWsCore s.data []).map String.mk

/-- Core of Python `str.splitlines` for newline-separated text:
split on `'\n'`, keeping interior empty lines. -/
def linesCore : List Char → List Char → List (List Char)
  | [], acc => [acc.reverse]
  | c :: cs, acc => if c = '\n' then acc.reverse :: linesCore cs [] else linesCore cs (c :: acc)

/-- Models Python `str.splitlines` on newline-separated text: a trailing
line terminator does not produce a final empty line. -/
def pySplitlines (s : String) : List String :=
  (if (linesCore s.data []).getLast? = some [] then (linesCore s.data []).dropLast
   else linesCore s.data []).map String.mk

/-- Models Python `shlex.split` (standard library) on command lines that
contain no quoting or escape characters, where POSIX shell word splitting
coincides with whitespace splitting.  The `dumpfs -m` newfs lines parsed
by this module are of that form. -/
def shlexSplit (s : String) : List String :=
  pySplit s

/-- Substring search, modelling `re.search` with a plain-text pattern:
`containsSub pat l` is true iff `pat` occurs contiguously in `l`. -/
def containsSub (pat : List Char) : List Char → Bool
  | [] => pat.isPrefixOf []
  | c :: t => pat.isPrefixOf (c :: t) || containsSub pat t

/-- Digit list to the natural number it denotes in base 10. -/
def digitsToNat (ds : List Char) : Nat :=
  ds.foldl (fun n c => 10 * n + (c.toNat - 48)) 0

/-- Models Python `int(str)` on decimal literals: optional surrounding
whitespace, optional sign, then at least one ASCII digit; anything else
raises `ValueError`. -/
def pyInt (s : String) : Except PyErr Int :=
  let cs := ((s.data.dropWhile Char.isWhitespace).reverse.dropWhile Char.isWhitespace).reverse
  match cs with
  | '-' :: ds =>
    if ds ≠ [] ∧ ds.all Char.isDigit then .ok (-(digitsToNat ds : Int)) else .error .valueError
  | '+' :: ds =>
    if ds ≠ [] ∧ ds.all Char.isDigit then .ok (digitsToNat ds : Int) else .error .valueError
  | ds =>
    if ds ≠ [] ∧ ds.all Char.isDigit then .ok (digitsToNat ds : Int) else .error .valueError

/-- Python's `%` on floats for exact operands: `a - ⌊a / b⌋ * b` (the
result carries the sign of `b`).  The module computes
`expect_sz % (frag_sz / 512)` with `/` being Python 3 true division;
we model that arithmetic with exact rationals, which agrees with the
IEEE-double evaluation for the magnitudes of filesystem sector counts. -/
def pymod (a b : ℚ) : ℚ :=
  a - (⌊a / b⌋ : ℚ) * b

/-- Models `getopt.short_has_arg` from the Python standard library:
finds the option character in the option string and reports whether it
is followed by `':'`; an unknown option raises `GetoptError`. -/
def shortHasArg (c : Char) : List Char → Except PyErr Bool
  | [] => .error .getoptError
  | x :: xs =>
    if c = x ∧ x ≠ ':' then .ok (decide (xs.head? = some ':'))
    else shortHasArg c xs

/-- Models `getopt.do_shorts`: processes one `-xyz` cluster.  The second
component of the result records whether the following argument was
consumed as an option value. -/
def doShorts (opts : List (String × String)) :
    List Char → String → Option String → Except PyErr (List (String × String) × Bool)
  | [], _, _ => .ok (opts, false)
  | c :: rest, so, nextArg =>
    match shortHasArg c so.data with
    | .error e => .error e
    | .ok true =>
      if rest = [] then
        match nextArg with
        | none => .error .getoptError
        | some a => .ok (opts ++ [(String.mk ['-', c], a)], true)
      else .ok (opts ++ [(String.mk ['-', c], String.mk rest)], false)
    | .ok false => doShorts (opts ++ [(String.mk ['-', c], "")]) rest so nextArg

/-- Models the main loop of `getopt.getopt` (no long options are passed
by this module, so a `--x` argument raises `GetoptError`).  Each
iteration consumes at least the head argument, so fuel equal to the
number of arguments always suffices; the fuel-exhaustion branch is
unreachable from `pygetopt`. -/
def getoptLoop : Nat → List (String × String) → List String → String →
    Except PyErr (List (String × String) × List String)
  | _, opts, [], _ => .ok (opts, [])
  | 0, opts, a :: rest, _ => .ok (opts, a :: rest)
  | fuel + 1, opts, a :: rest, so =>
    match a.data with
    | '-' :: [] => .ok (opts, a :: rest)
    | '-' :: '-' :: [] => .ok (opts, rest)
    | '-' :: '-' :: _ => .error .getoptError
    | '-' :: cluster =>
      match doShorts opts cluster so rest.head? with
      | .error e => .error e
      | .ok (opts', true) => getoptLoop fuel opts' rest.tail so
      | .ok (opts', false) => getoptLoop fuel opts' rest so
    | _ => .ok (opts, a :: rest)

/-- Models `getopt.getopt(args, shortopts)` from the Python standard
library, as called by `_can_skip_resize_ufs`. -/
def pygetopt (args : List String) (shortopts : String) :
    Except PyErr (List (String × String) × List String) :=
  getoptLoop args.length [] args shortopts

/-!  The embedded module `cc_resizefs.py`.  -/

/-- Embeds `_resize_btrfs`. -/
def _resize_btrfs (mount_point _devpth : String) : List String :=
  ["btrfs", "filesystem", "resize", "max", mount_point]

/-- Embeds `_resize_ext`. -/
def _resize_ext (_mount_point devpth : String) : List String :=
  ["resize2fs", devpth]

/-- Embeds `_resize_xfs`. -/
def _resize_xfs (_mount_point devpth : String) : List String :=
  ["xfs_growfs", devpth]

/-- Embeds `_resize_ufs`. -/
def _resize_ufs (_mount_point devpth : String) : List String :=
  ["growfs", devpth]

/-- The getopt option string of `_can_skip_resize_ufs`. -/
def opt_value : String := "O:Ua:s:b:d:e:f:g:h:i:jk:m:o:"

/-- Embeds the dumpfs-parsing loop of `_can_skip_resize_ufs`
(lines 85-94): every line of the dumpfs output that does not start with
`#` is word-split and fed to `getopt`; options `-s` and `-f` update
`cur_fs_sz` and `frag_sz`, later lines overwriting earlier values. -/
def parseNewfsLines (lines : List String) : Except PyErr (Option Int × Option Int) :=
  lines.foldlM
    (fun st line =>
      if pyStartsWith line "#" then pure st
      else do
        let newfs_cmd := shlexSplit line
        let (optlist, _) ← pygetopt (newfs_cmd.drop 1) opt_value
        optlist.foldlM
          (fun st p => do
            let st ← if p.1 = "-s" then do
                let v ← pyInt p.2
                pure (some v, st.2)
              else pure st
            if p.1 = "-f" then do
              let v ← pyInt p.2
              pure (st.1, some v)
            else pure st)
          st)
    ((none, none) : Option Int × Option Int)

/-- Embeds `re.search('^(/dev/.+)p([0-9])$', devpth)` and, on success,
`m.group(1)`.  The pattern is fully anchored, so it matches iff the
string (or, because `$` also matches just before a final newline, the
string less one trailing `'\n'`) is `/dev/`, a nonempty run of
non-newline characters, `p`, and one digit; group 1 is everything
before that final `p`. -/
def coreMatchDiskPart (cs : List Char) : Option (List Char) :=
  match cs.reverse with
  | d :: 'p' :: rest =>
    let pre := rest.reverse
    if d.isDigit ∧ pre.take 5 = "/dev/".data ∧ 6 ≤ pre.length ∧
        (pre.drop 5).all (fun c => c ≠ '\n') then
      some pre
    else none
  | _ => none

/-- The device-path pattern match of `_can_skip_resize_ufs` (line 104),
returning `m.group(1)` when the search succeeds. -/
def matchDiskPart (devpth : String) : Option String :=
  match coreMatchDiskPart devpth.data with
  | some pre => some (String.mk pre)
  | none =>
    match devpth.data.getLast? with
    | some '\n' => (coreMatchDiskPart devpth.data.dropLast).map String.mk
    | _ => none

/-- Embeds the gpart-parsing loop of `_can_skip_resize_ufs`
(lines 107-110): the last line containing `freebsd-ufs` supplies
`expect_sz` from its second whitespace-separated field. -/
def parseGpartLines (lines : List String) : Except PyErr (Option Int) :=
  lines.foldlM
    (fun (e : Option Int) line =>
      if containsSub "freebsd-ufs".data line.data then
        match (pySplit line).get? 1 with
        | none => .error .indexError
        | some f => do
          let v ← pyInt f
          pure (some v)
      else pure e)
    (none : Option Int)

/-- Embeds `_can_skip_resize_ufs(mount_point, devpth)`.  The external
command runs `_get_dumpfs_output` and `_get_gpart_output` are supplied
as the collaborator functions `dumpfsOf` and `gpartOf`.  The final
normalisation `expect_sz - expect_sz % (frag_sz / 512)` follows
Python 3 evaluation order: a missing (`None`) `frag_sz` or `expect_sz`
raises `TypeError`, a zero `frag_sz` raises `ZeroDivisionError`, and a
missing `cur_fs_sz` makes the final `==` comparison false. -/
def _can_skip_resize_ufs (dumpfsOf gpartOf : String → String)
    (mount_point devpth : String) : Except PyErr Bool := do
  let (cur_fs_sz, frag_sz) ← parseNewfsLines (pySplitlines (dumpfsOf mount_point))
  match matchDiskPart devpth with
  | none => .error .attributeError
  | some disk =>
    let expect_sz ← parseGpartLines (pySplitlines (gpartOf disk))
    match frag_sz with
    | none => .error .typeError
    | some f =>
      match expect_sz with
      | none => .error .typeError
      | some e =>
        if (f : ℚ) / 512 = 0 then .error .zeroDivisionError
        else
          let normal_expect_sz : ℚ := (e : ℚ) - pymod (e : ℚ) ((f : ℚ) / 512)
          pure (match cur_fs_sz with
                | some s => decide (normal_expect_sz = (s : ℚ))
                | none => false)

/-- Embeds `RESIZE_FS_PREFIXES_CMDS`: the ordered dispatch list. -/
def RESIZE_FS_PREFIXES_CMDS : List (String × (String → String → List String)) :=
  [("btrfs", _resize_btrfs), ("ext", _resize_ext), ("xfs", _resize_xfs), ("ufs", _resize_ufs)]

/-- Embeds `RESIZE_FS_PRECHECK_CMDS`, the type-keyed pre-check table
(its single entry is `'ufs'`), with the subprocess collaborators made
explicit. -/
def RESIZE_FS_PRECHECK_CMDS (dumpfsOf gpartOf : String → String) :
    List (String × (String → String → Except PyErr Bool)) :=
  [("ufs", _can_skip_resize_ufs dumpfsOf gpartOf)]

/-- Embeds the dispatch loop of `handle` (lines 241-246): the first rule
of `RESIZE_FS_PREFIXES_CMDS` whose key is a prefix of the lower-cased
filesystem type. -/
def selectResizer (fs_type : String) : Option (String × (String → String → List String)) :=
  RESIZE_FS_PREFIXES_CMDS.find? (fun p => pyStartsWith (pyLower fs_type) p.1)

/-- Embeds `rootdev_from_cmdline(cmdline)`. -/
def rootdev_from_cmdline (cmdline : String) : Option String :=
  match (pySplit cmdline).find? (fun tok => pyStartsWith tok "root=") with
  | none => none
  | some tok =>
    let found := pyDrop tok 5
    if pyStartsWith found "/dev/" then some found
    else if pyStartsWith found "LABEL=" then some ("/dev/disk/by-label/" ++ pyDrop found 6)
    else if pyStartsWith found "UUID=" then some ("/dev/disk/by-uuid/" ++ pyDrop found 5)
    else some ("/dev/" ++ found)

/-- The per-token mapping of `rootdev_from_cmdline` applied to the value
after `root=`, named so that theorems can state that the result is
determined by one token alone. -/
def mapRootValue (v : String) : String :=
  if pyStartsWith v "/dev/" then v
  else if pyStartsWith v "LABEL=" then "/dev/disk/by-label/" ++ pyDrop v 6
  else if pyStartsWith v "UUID=" then "/dev/disk/by-uuid/" ++ pyDrop v 5
  else "/dev/" ++ v

/-- Embeds `can_skip_resize(fs_type, resize_what, devpth)`. -/
def can_skip_resize (dumpfsOf gpartOf : String → String)
    (fs_type resize_what devpth : String) : Except PyErr Bool :=
  match (RESIZE_FS_PRECHECK_CMDS dumpfsOf gpartOf).find?
      (fun p => pyStartsWith (pyLower fs_type) p.1) with
  | some p => p.2 resize_what devpth
  | none => .ok false

/-- The two log severities used by the module. -/
inductive LogLevel where
  | debug
  | warn
deriving DecidableEq, Repr

/-- One structured log record per `log.debug` / `log.warn` /
`util.logexc` call site of `handle` and `do_resize`, carrying the data
interpolated into the message. -/
inductive LogEvent where
  | skipDisabled (name : String)
  | noMountInfo (what : String)
  | resizeInfo (devpth mount_point what : String)
  | unableFindDevRoot
  | convertedDevRoot (devpth : String)
  | devNotExistContainer (devpth : String)
  | devNotExist (devpth : String)
  | notWritableContainer (devpth : String)
  | notWritable (devpth : String)
  | notBlockContainer (devpth : String)
  | notBlock (devpth : String)
  | skipResize (fs_type what : String)
  | unknownFs (fs_type what : String)
  | resizing (what fs_type : String) (cmd : List String)
  | failedResize (cmd : List String)
  | finalAction (action fs_type : String)
deriving DecidableEq, Repr

/-- The severity at which each call site logs its event. -/
def levelOf : LogEvent → LogLevel
  | .skipDisabled _ => .debug
  | .noMountInfo _ => .warn
  | .resizeInfo _ _ _ => .debug
  | .unableFindDevRoot => .warn
  | .convertedDevRoot _ => .debug
  | .devNotExistContainer _ => .debug
  | .devNotExist _ => .warn
  | .notWritableContainer _ => .debug
  | .notWritable _ => .warn
  | .notBlockContainer _ => .debug
  | .notBlock _ => .warn
  | .skipResize _ _ => .debug
  | .unknownFs _ _ => .warn
  | .resizing _ _ _ => .debug
  | .failedResize _ => .warn
  | .finalAction _ _ => .debug

/-- How an invocation of `handle` ends: a normal return, or a Python
exception propagating to the caller. -/
inductive HandleResult where
  | ret
  | raised (e : PyErr)
deriving DecidableEq, Repr

/-- The documented domain of the `resize_rootfs` option
(`true` / `false` / `"noblock"`), after `handle` has taken it from
`args[0]` or from the configuration.  `util.translate_bool` and
`util.get_cfg_option_str` are out-of-scope collaborators; on this
domain `translate_bool` is false only for `false`, and only the string
`"noblock"` compares equal to `NOBLOCK`. -/
inductive ResizeRootCfg where
  | pyTrue
  | pyFalse
  | pyNoblock
deriving DecidableEq, Repr

/-- `util.translate_bool(resize_root, addons=[NOBLOCK])` on the
documented option domain. -/
def translate_bool : ResizeRootCfg → Bool
  | .pyFalse => false
  | _ => true

/-- The `resize_root == NOBLOCK` test of `handle`. -/
def isNoblock : ResizeRootCfg → Bool
  | .pyNoblock => true
  | _ => false

/-- `errno.ENOENT` (no such file or directory). -/
def ENOENT : Nat := 2

/-- The result of `os.stat`, reduced to the two mode predicates
(`stat.S_ISBLK`, `stat.S_ISCHR`) that `handle` consults. -/
structure StatResult where
  isBlk : Bool
  isChr : Bool
deriving DecidableEq, Repr

/-- The external collaborators consumed by one invocation of `handle`,
per the narrow contracts the module relies on: the resolved
`resize_rootfs` value, `util.get_mount_info("/")`, `util.is_container`,
`os.path.exists`, the kernel command line, `os.stat` (failures keyed by
`errno`), `os.access(_, W_OK)`, the `dumpfs`/`gpart` output providers of
the UFS pre-check, and the resize subprocess (`false` models
`ProcessExecutionError`). -/
structure HandleEnv where
  resize_root : ResizeRootCfg
  mount_info : Option (String × String × String)
  container : Bool
  path_exists : String → Bool
  cmdline : String
  stat : String → Except Nat StatResult
  access_w : String → Bool
  dumpfsOf : String → String
  gpartOf : String → String
  runCmd : List String → Bool

/-- Embeds `do_resize(resize_cmd, log)`: run the resize command; on
`ProcessExecutionError` log the failure (with the command line) and
re-raise. -/
def do_resize (runCmd : List String → Bool) (resize_cmd : List String) :
    List LogEvent × Option PyErr :=
  if runCmd resize_cmd then ([], none)
  else ([.failedResize resize_cmd], some .processExecutionError)

/-- Embeds `handle(name, cfg, _cloud, log, args)` after resolution of
`resize_root` (lines 164-262), producing the emitted log events and the
way the invocation ends.  `util.ensure_dir` and `util.log_time` are
effect-free on this model's state; `util.fork_cb` detaches the child,
so in noblock mode the child's `do_resize` outcome does not reach the
parent's control flow.  `util.rootdev_from_cmdline` is the module-level
`rootdev_from_cmdline`. -/
def handle (env : HandleEnv) (name : String) : List LogEvent × HandleResult :=
  if translate_bool env.resize_root = false then ([.skipDisabled name], .ret)
  else
    match env.mount_info with
    | none => ([.noMountInfo "/"], .ret)
    | some (devpth₀, fs_type, mount_point) =>
      let log₀ := [LogEvent.resizeInfo devpth₀ mount_point "/"]
      let conv : Option (String × List LogEvent) :=
        if devpth₀ = "/dev/root" ∧ ¬ env.path_exists devpth₀ ∧ ¬ env.container then
          match rootdev_from_cmdline env.cmdline with
          | none => none
          | some d => some (d, [.convertedDevRoot d])
        else some (devpth₀, [])
      match conv with
      | none => (log₀ ++ [.unableFindDevRoot], .ret)
      | some (devpth, clog) =>
        let log₁ := log₀ ++ clog
        match env.stat devpth with
        | .error en =>
          if env.container ∧ en = ENOENT then (log₁ ++ [.devNotExistContainer devpth], .ret)
          else if en = ENOENT then (log₁ ++ [.devNotExist devpth], .ret)
          else (log₁, .raised (.osError en))
        | .ok statret =>
          if ¬ env.access_w devpth then
            (log₁ ++ [if env.container then LogEvent.notWritableContainer devpth
                      else LogEvent.notWritable devpth], .ret)
          else if ¬ statret.isBlk ∧ ¬ statret.isChr then
            (log₁ ++ [if env.container then LogEvent.notBlockContainer devpth
                      else LogEvent.notBlock devpth], .ret)
          else
            match can_skip_resize env.dumpfsOf env.gpartOf fs_type "/" devpth with
            | .error e => (log₁, .raised e)
            | .ok true => (log₁ ++ [.skipResize fs_type "/"], .ret)
            | .ok false =>
              match selectResizer fs_type with
              | none => (log₁ ++ [.unknownFs fs_type "/"], .ret)
              | some p =>
                let resize_cmd := p.2 "/" devpth
                let log₂ := log₁ ++ [.resizing "/" fs_type resize_cmd]
                if isNoblock env.resize_root then
                  (log₂ ++ [.finalAction "Resizing (via forking)" fs_type], .ret)
                else
                  match do_resize env.runCmd resize_cmd with
                  | (dlog, some e) => (log₂ ++ dlog, .raised e)
                  | (dlog, none) => (log₂ ++ dlog ++ [.finalAction "Resized" fs_type], .ret)

/-!  Concrete input families for the UFS pre-check claims.  -/

/-- Join character lists with a single separator character. -/
def joinSep (sep : Char) : List (List Char) → List Char
  | [] => []
  | [l] => l
  | l :: ls => l ++ sep :: joinSep sep ls

/-- A single line built from whitespace-free tokens. -/
def mkLine (toks : List String) : List Char :=
  joinSep ' ' (toks.map String.data)

/-- The token list of the newfs recreation command reported by
`dumpfs -m` (the shape documented in the module's own docstring), with
the `-s` (size) and `-f` (fragment size) option values abstracted. -/
def newfsTokens (sS sF : String) : List String :=
  ["newfs", "-O", "2", "-U", "-a", "4", "-b", "32768", "-d", "32768", "-e", "4096",
   "-f", sF, "-g", "16384", "-h", "64", "-i", "8192", "-j", "-k", "6408", "-m", "8",
   "-o", "time", "-s", sS, "/dev/label/rootfs"]

/-- A `dumpfs -m` output: one comment line, then the newfs command line
with size `sS` and fragment size `sF`. -/
def mkDumpfs (sS sF : String) : String :=
  String.mk (joinSep '\n'
    ["# newfs command for / (/dev/label/rootfs)".data,
     mkLine (newfsTokens sS sF)])

/-- The `freebsd-ufs` partition line of a `gpart show` output, with the
size field (second whitespace-separated field) abstracted. -/
def ufsGpartLine (sE : String) : List Char :=
  mkLine ["1064", sE, "2", "freebsd-ufs", "(28G)"]

/-- A `gpart show` output in the shape documented in the module's
docstring, with the `freebsd-ufs` partition size abstracted. -/
def mkGpart (sE : String) : String :=
  String.mk (joinSep '\n'
    ["=> 40 62914480 da0 GPT (30G)".data,
     "40 1024 1 freebsd-boot (512K)".data,
     ufsGpartLine sE,
     "58720296 3145728 3 freebsd-swap (1.5G)".data,
     "61866024 1048496 - free - (512M)".data])

/-- A nonempty all-digit string (the form of the numeric fields the
pre-check extracts). -/
def DigitStr (s : String) : Prop :=
  s.data ≠ [] ∧ ∀ c ∈ s.data, c.isDigit = true

instance (s : String) : Decidable (DigitStr s) := by
  unfold DigitStr; infer_instance

/-!  String-model lemmas.  -/

theorem data_append (a b : String) : (a ++ b).data = a.data ++ b.data := rfl

theorem mk_data (s : String) : String.mk s.data = s := rfl

theorem digit_not_ws {c : Char} (h : c.isDigit = true) : c.isWhitespace = false := by
  by_contra hc
  simp only [Bool.not_eq_false] at hc
  simp only [Char.isWhitespace, Bool.or_eq_true, decide_eq_true_eq] at hc
  rcases hc with ((h1 | h1) | h1) | h1 <;> subst h1 <;> exact absurd h (by decide)

theorem digit_ne_nl {c : Char} (h : c.isDigit = true) : c ≠ '\n' := by
  intro hc; subst hc; exact absurd h (by decide)

theorem splitWsCore_nonws {tok : List Char} (h : ∀ c ∈ tok, c.isWhitespace = false) :
    ∀ cs acc, splitWsCore (tok ++ cs) acc = splitWsCore cs (tok.reverse ++ acc) := by
  induction tok with
  | nil => intro cs acc; simp [splitWsCore]
  | cons c t ih =>
    intro cs acc
    have hc : c.isWhitespace = false := h c (by simp)
    have ht : ∀ c ∈ t, c.isWhitespace = false := fun c hm => h c (by simp [hm])
    simp only [List.cons_append, splitWsCore, hc, Bool.false_eq_true, if_false,
      List.append_eq]
    rw [ih ht cs (c :: acc)]
    simp [List.append_assoc]

theorem splitWs_join {ts : List (List Char)}
    (h : ∀ t ∈ ts, t ≠ [] ∧ ∀ c ∈ t, c.isWhitespace = false) :
    splitWsCore (joinSep ' ' ts) [] = ts := by
  induction ts with
  | nil => rfl
  | cons t ts ih =>
    rcases h t (by simp) with ⟨hne, hws⟩
    have hts : ∀ t ∈ ts, t ≠ [] ∧ ∀ c ∈ t, c.isWhitespace = false :=
      fun u hm => h u (by simp [hm])
    cases ts with
    | nil =>
      show splitWsCore t [] = [t]
      have := splitWsCore_nonws hws [] []
      rw [List.append_nil] at this
      rw [this]
      simp [splitWsCore, hne]
    | cons t₂ ts₂ =>
      show splitWsCore (t ++ ' ' :: joinSep ' ' (t₂ :: ts₂)) [] = t :: t₂ :: ts₂
      rw [splitWsCore_nonws hws _ []]
      simp only [List.append_nil, splitWsCore]
      have : (' ' : Char).isWhitespace = true := by decide
      rw [if_pos this]
      have hrne : t.reverse ≠ [] := by simpa using hne
      rw [if_neg hrne]
      rw [ih hts]
      simp

theorem linesCore_nonnl {tok : List Char} (h : ∀ c ∈ tok, c ≠ '\n') :
    ∀ cs acc, linesCore (tok ++ cs) acc = linesCore cs (tok.reverse ++ acc) := by
  induction tok with
  | nil => intro cs acc; simp
  | cons c t ih =>
    intro cs acc
    have hc : c ≠ '\n' := h c (by simp)
    have ht : ∀ c ∈ t, c ≠ '\n' := fun c hm => h c (by simp [hm])
    simp only [List.cons_append, linesCore, hc, if_false, List.append_eq]
    rw [ih ht cs (c :: acc)]
    simp [List.append_assoc]

theorem lines_join {ls : List (List Char)} (h : ∀ l ∈ ls, ∀ c ∈ l, c ≠ '\n')
    (hne : ls ≠ []) : linesCore (joinSep '\n' ls) [] = ls := by
  induction ls with
  | nil => exact absurd rfl hne
  | cons l ls ih =>
    have hl : ∀ c ∈ l, c ≠ '\n' := h l (by simp)
    have hls : ∀ u ∈ ls, ∀ c ∈ u, c ≠ '\n' := fun u hm => h u (by simp [hm])
    cases ls with
    | nil =>
      show linesCore l [] = [l]
      have := linesCore_nonnl hl [] []
      rw [List.append_nil] at this
      rw [this]
      simp [linesCore]
    | cons l₂ ls₂ =>
      show linesCore (l ++ '\n' :: joinSep '\n' (l₂ :: ls₂)) [] = l :: l₂ :: ls₂
      rw [linesCore_nonnl hl _ []]
      simp only [List.append_nil, linesCore, if_pos rfl]
      rw [ih hls (by simp)]
      simp

theorem mem_joinSep {c : Char} {sep : Char} :
    ∀ {ts : List (List Char)}, c ∈ joinSep sep ts → c = sep ∨ ∃ t ∈ ts, c ∈ t := by
  intro ts
  induction ts with
  | nil => intro h; simp [joinSep] at h
  | cons t ts ih =>
    cases ts with
    | nil => intro h; right; exact ⟨t, by simp, h⟩
    | cons t₂ ts₂ =>
      intro h
      rcases List.mem_append.mp h with h | h
      · right; exact ⟨t, by simp, h⟩
      · rcases List.mem_cons.mp h with h | h
        · left; exact h
        · rcases ih h with h | ⟨u, hu, hc⟩
          · left; exact h
          · right; exact ⟨u, by simp [hu], hc⟩

theorem containsSub_suffix {pat b : List Char} (hb : containsSub pat b = true) :
    ∀ a, containsSub pat (a ++ b) = true := by
  intro a
  induction a with
  | nil => simpa using hb
  | cons c t ih =>
    show containsSub pat (c :: (t ++ b)) = true
    cases htb : t ++ b with
    | nil =>
      rw [htb] at ih
      simp only [containsSub] at ih ⊢
      rw [ih]
      simp
    | cons x xs =>
      rw [htb] at ih
      simp only [containsSub] at ih ⊢
      rw [ih]
      simp

theorem find?_append_cons {α} (p : α → Bool) (pre post : List α) (x : α)
    (h : ∀ a ∈ pre, p a = false) (hx : p x = true) :
    List.find? p (pre ++ x :: post) = some x := by
  induction pre with
  | nil => simp [List.find?, hx]
  | cons a as ih =>
    have ha : p a = false := h a (by simp)
    have has : ∀ a ∈ as, p a = false := fun a hm => h a (by simp [hm])
    simp [List.find?, ha, ih has]

theorem pyStartsWith_head {s p : String} {c : Char} {t : List Char}
    (hp : p.data = c :: t) (h : pyStartsWith s p = true) : ∃ u, s.data = c :: u := by
  unfold pyStartsWith at h
  rw [hp] at h
  cases hs : s.data with
  | nil => rw [hs] at h; simp [List.isPrefixOf] at h
  | cons d u =>
    rw [hs] at h
    simp only [List.isPrefixOf, Bool.and_eq_true, beq_iff_eq] at h
    exact ⟨u, by rw [h.1]⟩

/-- A token that word splitting leaves intact: nonempty and free of
whitespace. -/
def GoodTok (s : String) : Prop :=
  s.data ≠ [] ∧ ∀ c ∈ s.data, c.isWhitespace = false

instance (s : String) : Decidable (GoodTok s) := by
  unfold GoodTok; infer_instance

theorem goodTok_of_digit {s : String} (h : DigitStr s) : GoodTok s :=
  ⟨h.1, fun c hc => digit_not_ws (h.2 c hc)⟩

theorem goodTok_no_nl {s : String} (h : GoodTok s) : ∀ c ∈ s.data, c ≠ '\n' := by
  intro c hc he
  have := h.2 c hc
  subst he
  exact absurd this (by decide)

theorem joinSep_cons_ne_nil {sep : Char} {t : List Char} {ts : List (List Char)}
    (h : t ≠ []) : joinSep sep (t :: ts) ≠ [] := by
  cases ts with
  | nil => exact h
  | cons a as =>
    show t ++ sep :: joinSep sep (a :: as) ≠ []
    cases t with
    | nil => simp
    | cons x xs => simp

theorem mkLine_no_nl {toks : List String} (h : ∀ t ∈ toks, GoodTok t) :
    ∀ c ∈ mkLine toks, c ≠ '\n' := by
  intro c hc
  rcases mem_joinSep hc with h' | ⟨t, ht, hct⟩
  · subst h'; decide
  · rcases List.mem_map.mp ht with ⟨t₀, ht₀, rfl⟩
    exact goodTok_no_nl (h t₀ ht₀) c hct

theorem pySplit_mkLine {toks : List String} (h : ∀ t ∈ toks, GoodTok t) :
    pySplit (String.mk (mkLine toks)) = toks := by
  unfold pySplit mkLine
  have hts : ∀ t ∈ toks.map String.data, t ≠ [] ∧ ∀ c ∈ t, c.isWhitespace = false := by
    intro t ht
    rcases List.mem_map.mp ht with ⟨t₀, ht₀, rfl⟩
    exact (h t₀ ht₀)
  rw [show (String.mk (joinSep ' ' (toks.map String.data))).data =
      joinSep ' ' (toks.map String.data) from rfl]
  rw [splitWs_join hts]
  rw [List.map_map]
  rw [show (String.mk ∘ String.data) = id from funext mk_data]
  exact List.map_id toks

theorem newfsTokens_good {sS sF : String} (hS : DigitStr sS) (hF : DigitStr sF) :
    ∀ t ∈ newfsTokens sS sF, GoodTok t := by
  intro t ht
  fin_cases ht
  all_goals first
    | decide
    | exact goodTok_of_digit hF
    | exact goodTok_of_digit hS

theorem mkLine_cons_ne_nil {t : String} {ts : List String} (h : t.data ≠ []) :
    mkLine (t :: ts) ≠ [] := by
  unfold mkLine
  simp only [List.map]
  exact joinSep_cons_ne_nil h

theorem pySplitlines_mkDumpfs {sS sF : String} (hS : DigitStr sS) (hF : DigitStr sF) :
    pySplitlines (mkDumpfs sS sF) =
      ["# newfs command for / (/dev/label/rootfs)", String.mk (mkLine (newfsTokens sS sF))] := by
  have hgood := newfsTokens_good hS hF
  have hnl : ∀ l ∈ ["# newfs command for / (/dev/label/rootfs)".data,
      mkLine (newfsTokens sS sF)], ∀ c ∈ l, c ≠ '\n' := by
    intro l hl
    rcases List.mem_cons.mp hl with rfl | hl
    · decide
    · rcases List.mem_cons.mp hl with rfl | hl
      · exact mkLine_no_nl hgood
      · simp at hl
  have hBne : mkLine (newfsTokens sS sF) ≠ [] := mkLine_cons_ne_nil (by decide)
  unfold pySplitlines mkDumpfs
  rw [show (String.mk (joinSep '\n' ["# newfs command for / (/dev/label/rootfs)".data,
      mkLine (newfsTokens sS sF)])).data =
      joinSep '\n' ["# newfs command for / (/dev/label/rootfs)".data,
      mkLine (newfsTokens sS sF)] from rfl]
  rw [lines_join hnl (by simp)]
  rw [if_neg (by simp [hBne])]
  rfl

theorem getopt_newfs (sS sF : String) :
    pygetopt ((newfsTokens sS sF).drop 1) opt_value =
      .ok ([("-O", "2"), ("-U", ""), ("-a", "4"), ("-b", "32768"), ("-d", "32768"),
            ("-e", "4096"), ("-f", sF), ("-g", "16384"), ("-h", "64"), ("-i", "8192"),
            ("-j", ""), ("-k", "6408"), ("-m", "8"), ("-o", "time"), ("-s", sS)],
           ["/dev/label/rootfs"]) := rfl

theorem startsWith_hash_newfs (sS sF : String) :
    pyStartsWith (String.mk (mkLine (newfsTokens sS sF))) "#" = false := rfl

theorem startsWith_hash_comment :
    pyStartsWith "# newfs command for / (/dev/label/rootfs)" "#" = true := rfl

theorem getopt_newfs_tail (sS sF : String) :
    pygetopt ((newfsTokens sS sF).tail) opt_value =
      .ok ([("-O", "2"), ("-U", ""), ("-a", "4"), ("-b", "32768"), ("-d", "32768"),
            ("-e", "4096"), ("-f", sF), ("-g", "16384"), ("-h", "64"), ("-i", "8192"),
            ("-j", ""), ("-k", "6408"), ("-m", "8"), ("-o", "time"), ("-s", sS)],
           ["/dev/label/rootfs"]) := rfl

theorem exceptFoldlM_cons {ε α β} (f : β → α → Except ε β) (b : β) (x : α) (xs : List α) :
    List.foldlM f b (x :: xs) = f b x >>= fun b' => List.foldlM f b' xs := rfl

theorem exceptFoldlM_nil {ε α β} (f : β → α → Except ε β) (b : β) :
    List.foldlM f b [] = pure b := rfl

theorem except_ok_bind {ε α β} (a : α) (f : α → Except ε β) :
    (Except.ok a : Except ε α) >>= f = f a := rfl

theorem except_error_bind {ε α β} (e : ε) (f : α → Except ε β) :
    (Except.error e : Except ε α) >>= f = Except.error e := rfl

theorem except_pure_eq {ε α} (a : α) : (pure a : Except ε α) = Except.ok a := rfl

theorem parseNewfs_mkDumpfs {sS sF : String} {S F : Int} (hSd : DigitStr sS)
    (hFd : DigitStr sF) (hS : pyInt sS = .ok S) (hF : pyInt sF = .ok F) :
    parseNewfsLines (pySplitlines (mkDumpfs sS sF)) = .ok (some S, some F) := by
  rw [pySplitlines_mkDumpfs hSd hFd]
  have hshlex : shlexSplit (String.mk (mkLine (newfsTokens sS sF))) = newfsTokens sS sF :=
    pySplit_mkLine (newfsTokens_good hSd hFd)
  unfold parseNewfsLines
  simp [exceptFoldlM_cons, exceptFoldlM_nil, except_ok_bind, except_pure_eq,
    startsWith_hash_newfs, startsWith_hash_comment, hshlex, getopt_newfs_tail, hS, hF]

theorem gpartTokens_good {sE : String} (hE : DigitStr sE) :
    ∀ t ∈ ["1064", sE, "2", "freebsd-ufs", "(28G)"], GoodTok t := by
  intro t ht
  fin_cases ht
  all_goals first
    | decide
    | exact goodTok_of_digit hE

theorem pySplitlines_mkGpart {sE : String} (hE : DigitStr sE) :
    pySplitlines (mkGpart sE) =
      ["=> 40 62914480 da0 GPT (30G)",
       "40 1024 1 freebsd-boot (512K)",
       String.mk (ufsGpartLine sE),
       "58720296 3145728 3 freebsd-swap (1.5G)",
       "61866024 1048496 - free - (512M)"] := by
  have hgood := gpartTokens_good hE
  have hnl : ∀ l ∈ ["=> 40 62914480 da0 GPT (30G)".data,
      "40 1024 1 freebsd-boot (512K)".data,
      ufsGpartLine sE,
      "58720296 3145728 3 freebsd-swap (1.5G)".data,
      "61866024 1048496 - free - (512M)".data], ∀ c ∈ l, c ≠ '\n' := by
    intro l hl
    rcases List.mem_cons.mp hl with rfl | hl
    · decide
    · rcases List.mem_cons.mp hl with rfl | hl
      · decide
      · rcases List.mem_cons.mp hl with rfl | hl
        · exact mkLine_no_nl hgood
        · rcases List.mem_cons.mp hl with rfl | hl
          · decide
          · rcases List.mem_cons.mp hl with rfl | hl
            · decide
            · simp at hl
  unfold pySplitlines mkGpart
  rw [show (String.mk (joinSep '\n' ["=> 40 62914480 da0 GPT (30G)".data,
      "40 1024 1 freebsd-boot (512K)".data,
      ufsGpartLine sE,
      "58720296 3145728 3 freebsd-swap (1.5G)".data,
      "61866024 1048496 - free - (512M)".data])).data =
      joinSep '\n' ["=> 40 62914480 da0 GPT (30G)".data,
      "40 1024 1 freebsd-boot (512K)".data,
      ufsGpartLine sE,
      "58720296 3145728 3 freebsd-swap (1.5G)".data,
      "61866024 1048496 - free - (512M)".data] from rfl]
  rw [lines_join hnl (by simp)]
  rw [if_neg (by simp)]
  rfl

theorem ufs_line_contains (sE : String) :
    containsSub "freebsd-ufs".data (ufsGpartLine sE) = true := by
  show containsSub "freebsd-ufs".data
      ("1064".data ++ ' ' :: (sE.data ++ ' ' ::
        ("2".data ++ ' ' :: ("freebsd-ufs".data ++ ' ' :: "(28G)".data)))) = true
  have h0 : containsSub "freebsd-ufs".data
      (' ' :: ("2".data ++ ' ' :: ("freebsd-ufs".data ++ ' ' :: "(28G)".data))) = true := by
    decide
  have h1 := containsSub_suffix h0 sE.data
  have h2 := containsSub_suffix h1 [' ']
  have h3 := containsSub_suffix h2 "1064".data
  exact h3

theorem parseGpart_mkGpart {sE : String} {E : Int} (hEd : DigitStr sE)
    (hE : pyInt sE = .ok E) :
    parseGpartLines (pySplitlines (mkGpart sE)) = .ok (some E) := by
  rw [pySplitlines_mkGpart hEd]
  have hfields : pySplit (String.mk (ufsGpartLine sE)) =
      ["1064", sE, "2", "freebsd-ufs", "(28G)"] :=
    pySplit_mkLine (gpartTokens_good hEd)
  unfold parseGpartLines
  simp [exceptFoldlM_cons, exceptFoldlM_nil, except_ok_bind, except_pure_eq,
    show containsSub ['f', 'r', 'e', 'e', 'b', 's', 'd', '-', 'u', 'f', 's']
      (ufsGpartLine sE) = true from ufs_line_contains sE,
    hfields, hE,
    show containsSub "freebsd-ufs".data "=> 40 62914480 da0 GPT (30G)".data = false from
      by decide,
    show containsSub "freebsd-ufs".data "40 1024 1 freebsd-boot (512K)".data = false from
      by decide,
    show containsSub "freebsd-ufs".data "58720296 3145728 3 freebsd-swap (1.5G)".data = false
      from by decide,
    show containsSub "freebsd-ufs".data "61866024 1048496 - free - (512M)".data = false from
      by decide]

/-- C1: on a dumpfs output whose (single) non-comment line is the
documented newfs command with `-s S -f F` and a gpart output whose
`freebsd-ufs` line has second field `E`, the UFS pre-check returns
precisely the truth value of `E - (E mod (F / 512)) = S`. -/
theorem ufs_precheck_skip_iff {sS sF sE : String} {S F E : Int}
    (hSd : DigitStr sS) (hFd : DigitStr sF) (hEd : DigitStr sE)
    (hS : pyInt sS = .ok S) (hF : pyInt sF = .ok F) (hE : pyInt sE = .ok E)
    (hFpos : 0 < F) :
    _can_skip_resize_ufs (fun _ => mkDumpfs sS sF) (fun _ => mkGpart sE) "/" "/dev/da0p2"
      = .ok (decide ((E : ℚ) - pymod (E : ℚ) ((F : ℚ) / 512) = (S : ℚ)))
    ∧ (_can_skip_resize_ufs (fun _ => mkDumpfs sS sF) (fun _ => mkGpart sE) "/" "/dev/da0p2"
      = .ok true ↔ (E : ℚ) - pymod (E : ℚ) ((F : ℚ) / 512) = (S : ℚ)) := by
  have hFq : (0 : ℚ) < (F : ℚ) := by exact_mod_cast hFpos
  have hq : ¬ ((F : ℚ) / 512 = 0) := (div_pos hFq (by norm_num)).ne'
  have h1 : _can_skip_resize_ufs (fun _ => mkDumpfs sS sF) (fun _ => mkGpart sE) "/"
      "/dev/da0p2" = .ok (decide ((E : ℚ) - pymod (E : ℚ) ((F : ℚ) / 512) = (S : ℚ))) := by
    unfold _can_skip_resize_ufs
    rw [parseNewfs_mkDumpfs hSd hFd hS hF]
    simp [except_ok_bind, except_pure_eq,
      show matchDiskPart "/dev/da0p2" = some "/dev/da0" from rfl,
      parseGpart_mkGpart hEd hE, hq, hFpos.ne']
  refine ⟨h1, ?_⟩
  rw [h1]
  simp

deriving instance DecidableEq for Except

/-- Witness for C1: with `-s 58719232 -f 4096`, a partition of 58719232
sectors yields skip, and one of 58720000 sectors does not. -/
theorem ufs_precheck_skip_iff_witness :
    _can_skip_resize_ufs (fun _ => mkDumpfs "58719232" "4096")
      (fun _ => mkGpart "58719232") "/" "/dev/da0p2" = .ok true
    ∧ _can_skip_resize_ufs (fun _ => mkDumpfs "58719232" "4096")
      (fun _ => mkGpart "58720000") "/" "/dev/da0p2" = .ok false := by
  constructor
  · have h := @ufs_precheck_skip_iff "58719232" "4096" "58719232" 58719232 4096 58719232
      (by decide) (by decide) (by decide) (by decide) (by decide) (by decide) (by decide)
    rw [h.1]
    have hp : ((58719232 : ℤ) : ℚ) - pymod ((58719232 : ℤ) : ℚ) (((4096 : ℤ) : ℚ) / 512)
        = ((58719232 : ℤ) : ℚ) := by
      unfold pymod
      norm_num
    rw [decide_eq_true hp]
  · have h := @ufs_precheck_skip_iff "58719232" "4096" "58720000" 58719232 4096 58720000
      (by decide) (by decide) (by decide) (by decide) (by decide) (by decide) (by decide)
    rw [h.1]
    have hp : ¬ (((58720000 : ℤ) : ℚ) - pymod ((58720000 : ℤ) : ℚ) (((4096 : ℤ) : ℚ) / 512)
        = ((58719232 : ℤ) : ℚ)) := by
      unfold pymod
      norm_num
    rw [decide_eq_false hp]

/-!  Inputs with a missing `-s` or `-f` option (claim C2).  -/

/-- Newfs tokens with `-f` but no `-s`. -/
def newfsTokensNoS (sF : String) : List String :=
  ["newfs", "-O", "2", "-U", "-f", sF, "/dev/label/rootfs"]

/-- Newfs tokens with `-s` but no `-f`. -/
def newfsTokensNoF (sS : String) : List String :=
  ["newfs", "-O", "2", "-U", "-s", sS, "/dev/label/rootfs"]

/-- A dumpfs output whose newfs line has no `-s` option. -/
def mkDumpfsNoS (sF : String) : String :=
  String.mk (joinSep '\n'
    ["# newfs command for / (/dev/label/rootfs)".data,
     mkLine (newfsTokensNoS sF)])

/-- A dumpfs output whose newfs line has no `-f` option. -/
def mkDumpfsNoF (sS : String) : String :=
  String.mk (joinSep '\n'
    ["# newfs command for / (/dev/label/rootfs)".data,
     mkLine (newfsTokensNoF sS)])

theorem newfsTokensNoS_good {sF : String} (hF : DigitStr sF) :
    ∀ t ∈ newfsTokensNoS sF, GoodTok t := by
  intro t ht
  fin_cases ht
  all_goals first
    | decide
    | exact goodTok_of_digit hF

theorem newfsTokensNoF_good {sS : String} (hS : DigitStr sS) :
    ∀ t ∈ newfsTokensNoF sS, GoodTok t := by
  intro t ht
  fin_cases ht
  all_goals first
    | decide
    | exact goodTok_of_digit hS

theorem pySplitlines_mkDumpfsNoS {sF : String} (hF : DigitStr sF) :
    pySplitlines (mkDumpfsNoS sF) =
      ["# newfs command for / (/dev/label/rootfs)", String.mk (mkLine (newfsTokensNoS sF))] := by
  have hgood := newfsTokensNoS_good hF
  have hnl : ∀ l ∈ ["# newfs command for / (/dev/label/rootfs)".data,
      mkLine (newfsTokensNoS sF)], ∀ c ∈ l, c ≠ '\n' := by
    intro l hl
    rcases List.mem_cons.mp hl with rfl | hl
    · decide
    · rcases List.mem_cons.mp hl with rfl | hl
      · exact mkLine_no_nl hgood
      · simp at hl
  have hBne : mkLine (newfsTokensNoS sF) ≠ [] := mkLine_cons_ne_nil (by decide)
  unfold pySplitlines mkDumpfsNoS
  rw [show (String.mk (joinSep '\n' ["# newfs command for / (/dev/label/rootfs)".data,
      mkLine (newfsTokensNoS sF)])).data =
      joinSep '\n' ["# newfs command for / (/dev/label/rootfs)".data,
      mkLine (newfsTokensNoS sF)] from rfl]
  rw [lines_join hnl (by simp)]
  rw [if_neg (by simp [hBne])]
  rfl

theorem pySplitlines_mkDumpfsNoF {sS : String} (hS : DigitStr sS) :
    pySplitlines (mkDumpfsNoF sS) =
      ["# newfs command for / (/dev/label/rootfs)", String.mk (mkLine (newfsTokensNoF sS))] := by
  have hgood := newfsTokensNoF_good hS
  have hnl : ∀ l ∈ ["# newfs command for / (/dev/label/rootfs)".data,
      mkLine (newfsTokensNoF sS)], ∀ c ∈ l, c ≠ '\n' := by
    intro l hl
    rcases List.mem_cons.mp hl with rfl | hl
    · decide
    · rcases List.mem_cons.mp hl with rfl | hl
      · exact mkLine_no_nl hgood
      · simp at hl
  have hBne : mkLine (newfsTokensNoF sS) ≠ [] := mkLine_cons_ne_nil (by decide)
  unfold pySplitlines mkDumpfsNoF
  rw [show (String.mk (joinSep '\n' ["# newfs command for / (/dev/label/rootfs)".data,
      mkLine (newfsTokensNoF sS)])).data =
      joinSep '\n' ["# newfs command for / (/dev/label/rootfs)".data,
      mkLine (newfsTokensNoF sS)] from rfl]
  rw [lines_join hnl (by simp)]
  rw [if_neg (by simp [hBne])]
  rfl

theorem startsWith_hash_newfsNoS (sF : String) :
    pyStartsWith (String.mk (mkLine (newfsTokensNoS sF))) "#" = false := rfl

theorem startsWith_hash_newfsNoF (sS : String) :
    pyStartsWith (String.mk (mkLine (newfsTokensNoF sS))) "#" = false := rfl

theorem getopt_newfsNoS_tail (sF : String) :
    pygetopt ((newfsTokensNoS sF).tail) opt_value =
      .ok ([("-O", "2"), ("-U", ""), ("-f", sF)], ["/dev/label/rootfs"]) := rfl

theorem getopt_newfsNoF_tail (sS : String) :
    pygetopt ((newfsTokensNoF sS).tail) opt_value =
      .ok ([("-O", "2"), ("-U", ""), ("-s", sS)], ["/dev/label/rootfs"]) := rfl

theorem parseNewfs_mkDumpfsNoS {sF : String} {F : Int} (hFd : DigitStr sF)
    (hF : pyInt sF = .ok F) :
    parseNewfsLines (pySplitlines (mkDumpfsNoS sF)) = .ok (none, some F) := by
  rw [pySplitlines_mkDumpfsNoS hFd]
  have hshlex : shlexSplit (String.mk (mkLine (newfsTokensNoS sF))) = newfsTokensNoS sF :=
    pySplit_mkLine (newfsTokensNoS_good hFd)
  unfold parseNewfsLines
  simp [exceptFoldlM_cons, exceptFoldlM_nil, except_ok_bind, except_pure_eq,
    startsWith_hash_newfsNoS, startsWith_hash_comment, hshlex, getopt_newfsNoS_tail, hF]

theorem parseNewfs_mkDumpfsNoF {sS : String} {S : Int} (hSd : DigitStr sS)
    (hS : pyInt sS = .ok S) :
    parseNewfsLines (pySplitlines (mkDumpfsNoF sS)) = .ok (some S, none) := by
  rw [pySplitlines_mkDumpfsNoF hSd]
  have hshlex : shlexSplit (String.mk (mkLine (newfsTokensNoF sS))) = newfsTokensNoF sS :=
    pySplit_mkLine (newfsTokensNoF_good hSd)
  unfold parseNewfsLines
  simp [exceptFoldlM_cons, exceptFoldlM_nil, except_ok_bind, except_pure_eq,
    startsWith_hash_newfsNoF, startsWith_hash_comment, hshlex, getopt_newfsNoF_tail, hS]

/-- Counterexample to C2 as stated: on a dumpfs output whose newfs line
carries `-s 58719232` but no `-f`, the pre-check does not return false —
it raises `TypeError` (Python evaluates `None / 512`), which propagates
out of the function. -/
theorem ufs_precheck_missing_f_counterexample :
    _can_skip_resize_ufs (fun _ => mkDumpfsNoF "58719232")
      (fun _ => mkGpart "58719232") "/" "/dev/da0p2" = .error .typeError
    ∧ _can_skip_resize_ufs (fun _ => mkDumpfsNoF "58719232")
      (fun _ => mkGpart "58719232") "/" "/dev/da0p2" ≠ .ok false := by
  constructor
  · rfl
  · decide

/-- C2 amended: a missing option never produces a skip, but the two
omissions behave differently — a missing `-s` leaves `cur_fs_sz`
unresolved and the final comparison is false (result `.ok false`), while
a missing `-f` makes the normalisation divide `None`, raising
`TypeError` instead of returning. -/
theorem ufs_precheck_missing_option_amended {sS sF sE : String} {S F E : Int}
    (hSd : DigitStr sS) (hFd : DigitStr sF) (hEd : DigitStr sE)
    (hS : pyInt sS = .ok S) (hF : pyInt sF = .ok F) (hE : pyInt sE = .ok E)
    (hFpos : 0 < F) :
    _can_skip_resize_ufs (fun _ => mkDumpfsNoS sF) (fun _ => mkGpart sE) "/" "/dev/da0p2"
      = .ok false
    ∧ _can_skip_resize_ufs (fun _ => mkDumpfsNoF sS) (fun _ => mkGpart sE) "/" "/dev/da0p2"
      = .error .typeError := by
  have hFq : (0 : ℚ) < (F : ℚ) := by exact_mod_cast hFpos
  have hq : ¬ ((F : ℚ) / 512 = 0) := (div_pos hFq (by norm_num)).ne'
  constructor
  · unfold _can_skip_resize_ufs
    rw [parseNewfs_mkDumpfsNoS hFd hF]
    simp [except_ok_bind, except_pure_eq,
      show matchDiskPart "/dev/da0p2" = some "/dev/da0" from rfl,
      parseGpart_mkGpart hEd hE, hq, hFpos.ne']
  · unfold _can_skip_resize_ufs
    rw [parseNewfs_mkDumpfsNoF hSd hS]
    simp [except_ok_bind, except_pure_eq,
      show matchDiskPart "/dev/da0p2" = some "/dev/da0" from rfl,
      parseGpart_mkGpart hEd hE]

/-- Witness for the amended C2 at the spec's concrete sizes. -/
theorem ufs_precheck_missing_option_amended_witness :
    _can_skip_resize_ufs (fun _ => mkDumpfsNoS "4096")
      (fun _ => mkGpart "58719232") "/" "/dev/da0p2" = .ok false
    ∧ _can_skip_resize_ufs (fun _ => mkDumpfsNoF "58719232")
      (fun _ => mkGpart "58719232") "/" "/dev/da0p2" = .error .typeError :=
  @ufs_precheck_missing_option_amended "58719232" "4096" "58719232" 58719232 4096 58719232
    (by decide) (by decide) (by decide) (by decide) (by decide) (by decide) (by decide)

/-!  Inputs with repeated newfs lines and repeated `freebsd-ufs` lines
(claim C10).  -/

/-- A dumpfs output with two non-comment newfs lines. -/
def mkDumpfs2 (sS1 sF1 sS2 sF2 : String) : String :=
  String.mk (joinSep '\n'
    ["# newfs command for / (/dev/label/rootfs)".data,
     mkLine (newfsTokens sS1 sF1),
     mkLine (newfsTokens sS2 sF2)])

/-- A gpart output with two `freebsd-ufs` lines. -/
def mkGpart2 (sE1 sE2 : String) : String :=
  String.mk (joinSep '\n'
    ["=> 40 62914480 da0 GPT (30G)".data,
     "40 1024 1 freebsd-boot (512K)".data,
     ufsGpartLine sE1,
     ufsGpartLine sE2,
     "61866024 1048496 - free - (512M)".data])

theorem pySplitlines_mkDumpfs2 {sS1 sF1 sS2 sF2 : String} (hS1 : DigitStr sS1)
    (hF1 : DigitStr sF1) (hS2 : DigitStr sS2) (hF2 : DigitStr sF2) :
    pySplitlines (mkDumpfs2 sS1 sF1 sS2 sF2) =
      ["# newfs command for / (/dev/label/rootfs)",
       String.mk (mkLine (newfsTokens sS1 sF1)),
       String.mk (mkLine (newfsTokens sS2 sF2))] := by
  have hnl : ∀ l ∈ ["# newfs command for / (/dev/label/rootfs)".data,
      mkLine (newfsTokens sS1 sF1), mkLine (newfsTokens sS2 sF2)], ∀ c ∈ l, c ≠ '\n' := by
    intro l hl
    rcases List.mem_cons.mp hl with rfl | hl
    · decide
    · rcases List.mem_cons.mp hl with rfl | hl
      · exact mkLine_no_nl (newfsTokens_good hS1 hF1)
      · rcases List.mem_cons.mp hl with rfl | hl
        · exact mkLine_no_nl (newfsTokens_good hS2 hF2)
        · simp at hl
  have hBne : mkLine (newfsTokens sS2 sF2) ≠ [] := mkLine_cons_ne_nil (by decide)
  unfold pySplitlines mkDumpfs2
  rw [show (String.mk (joinSep '\n' ["# newfs command for / (/dev/label/rootfs)".data,
      mkLine (newfsTokens sS1 sF1), mkLine (newfsTokens sS2 sF2)])).data =
      joinSep '\n' ["# newfs command for / (/dev/label/rootfs)".data,
      mkLine (newfsTokens sS1 sF1), mkLine (newfsTokens sS2 sF2)] from rfl]
  rw [lines_join hnl (by simp)]
  rw [if_neg (by simp [hBne])]
  rfl

theorem parseNewfs_mkDumpfs2 {sS1 sF1 sS2 sF2 : String} {S1 F1 S2 F2 : Int}
    (hS1d : DigitStr sS1) (hF1d : DigitStr sF1) (hS2d : DigitStr sS2) (hF2d : DigitStr sF2)
    (hS1 : pyInt sS1 = .ok S1) (hF1 : pyInt sF1 = .ok F1)
    (hS2 : pyInt sS2 = .ok S2) (hF2 : pyInt sF2 = .ok F2) :
    parseNewfsLines (pySplitlines (mkDumpfs2 sS1 sF1 sS2 sF2)) = .ok (some S2, some F2) := by
  rw [pySplitlines_mkDumpfs2 hS1d hF1d hS2d hF2d]
  have hshlex1 : shlexSplit (String.mk (mkLine (newfsTokens sS1 sF1))) = newfsTokens sS1 sF1 :=
    pySplit_mkLine (newfsTokens_good hS1d hF1d)
  have hshlex2 : shlexSplit (String.mk (mkLine (newfsTokens sS2 sF2))) = newfsTokens sS2 sF2 :=
    pySplit_mkLine (newfsTokens_good hS2d hF2d)
  unfold parseNewfsLines
  simp [exceptFoldlM_cons, exceptFoldlM_nil, except_ok_bind, except_pure_eq,
    startsWith_hash_newfs, startsWith_hash_comment, hshlex1, hshlex2, getopt_newfs_tail,
    hS1, hF1, hS2, hF2]

theorem pySplitlines_mkGpart2 {sE1 sE2 : String} (hE1 : DigitStr sE1) (hE2 : DigitStr sE2) :
    pySplitlines (mkGpart2 sE1 sE2) =
      ["=> 40 62914480 da0 GPT (30G)",
       "40 1024 1 freebsd-boot (512K)",
       String.mk (ufsGpartLine sE1),
       String.mk (ufsGpartLine sE2),
       "61866024 1048496 - free - (512M)"] := by
  have hnl : ∀ l ∈ ["=> 40 62914480 da0 GPT (30G)".data,
      "40 1024 1 freebsd-boot (512K)".data,
      ufsGpartLine sE1, ufsGpartLine sE2,
      "61866024 1048496 - free - (512M)".data], ∀ c ∈ l, c ≠ '\n' := by
    intro l hl
    rcases List.mem_cons.mp hl with rfl | hl
    · decide
    · rcases List.mem_cons.mp hl with rfl | hl
      · decide
      · rcases List.mem_cons.mp hl with rfl | hl
        · exact mkLine_no_nl (gpartTokens_good hE1)
        · rcases List.mem_cons.mp hl with rfl | hl
          · exact mkLine_no_nl (gpartTokens_good hE2)
          · rcases List.mem_cons.mp hl with rfl | hl
            · decide
            · simp at hl
  unfold pySplitlines mkGpart2
  rw [show (String.mk (joinSep '\n' ["=> 40 62914480 da0 GPT (30G)".data,
      "40 1024 1 freebsd-boot (512K)".data,
      ufsGpartLine sE1, ufsGpartLine sE2,
      "61866024 1048496 - free - (512M)".data])).data =
      joinSep '\n' ["=> 40 62914480 da0 GPT (30G)".data,
      "40 1024 1 freebsd-boot (512K)".data,
      ufsGpartLine sE1, ufsGpartLine sE2,
      "61866024 1048496 - free - (512M)".data] from rfl]
  rw [lines_join hnl (by simp)]
  rw [if_neg (by simp)]
  rfl

theorem parseGpart_mkGpart2 {sE1 sE2 : String} {E1 E2 : Int} (hE1d : DigitStr sE1)
    (hE2d : DigitStr sE2) (hE1 : pyInt sE1 = .ok E1) (hE2 : pyInt sE2 = .ok E2) :
    parseGpartLines (pySplitlines (mkGpart2 sE1 sE2)) = .ok (some E2) := by
  rw [pySplitlines_mkGpart2 hE1d hE2d]
  have hfields1 : pySplit (String.mk (ufsGpartLine sE1)) =
      ["1064", sE1, "2", "freebsd-ufs", "(28G)"] :=
    pySplit_mkLine (gpartTokens_good hE1d)
  have hfields2 : pySplit (String.mk (ufsGpartLine sE2)) =
      ["1064", sE2, "2", "freebsd-ufs", "(28G)"] :=
    pySplit_mkLine (gpartTokens_good hE2d)
  unfold parseGpartLines
  simp [exceptFoldlM_cons, exceptFoldlM_nil, except_ok_bind, except_pure_eq,
    show containsSub ['f', 'r', 'e', 'e', 'b', 's', 'd', '-', 'u', 'f', 's']
      (ufsGpartLine sE1) = true from ufs_line_contains sE1,
    show containsSub ['f', 'r', 'e', 'e', 'b', 's', 'd', '-', 'u', 'f', 's']
      (ufsGpartLine sE2) = true from ufs_line_contains sE2,
    hfields1, hfields2, hE1, hE2,
    show containsSub "freebsd-ufs".data "=> 40 62914480 da0 GPT (30G)".data = false from
      by decide,
    show containsSub "freebsd-ufs".data "40 1024 1 freebsd-boot (512K)".data = false from
      by decide,
    show containsSub "freebsd-ufs".data "61866024 1048496 - free - (512M)".data = false from
      by decide]

/-- C10: with two non-comment newfs lines and two `freebsd-ufs` lines,
the pre-check behaves exactly as it does on inputs carrying only the
last newfs line's `-s`/`-f` values and the last `freebsd-ufs` line's
size: later lines overwrite earlier ones. -/
theorem ufs_precheck_last_match_wins {sS1 sF1 sS2 sF2 sE1 sE2 : String}
    {S1 F1 S2 F2 E1 E2 : Int}
    (hS1d : DigitStr sS1) (hF1d : DigitStr sF1) (hS2d : DigitStr sS2) (hF2d : DigitStr sF2)
    (hE1d : DigitStr sE1) (hE2d : DigitStr sE2)
    (hS1 : pyInt sS1 = .ok S1) (hF1 : pyInt sF1 = .ok F1)
    (hS2 : pyInt sS2 = .ok S2) (hF2 : pyInt sF2 = .ok F2)
    (hE1 : pyInt sE1 = .ok E1) (hE2 : pyInt sE2 = .ok E2) :
    _can_skip_resize_ufs (fun _ => mkDumpfs2 sS1 sF1 sS2 sF2) (fun _ => mkGpart2 sE1 sE2)
      "/" "/dev/da0p2"
    = _can_skip_resize_ufs (fun _ => mkDumpfs sS2 sF2) (fun _ => mkGpart sE2)
      "/" "/dev/da0p2" := by
  unfold _can_skip_resize_ufs
  rw [parseNewfs_mkDumpfs2 hS1d hF1d hS2d hF2d hS1 hF1 hS2 hF2,
    parseNewfs_mkDumpfs hS2d hF2d hS2 hF2]
  simp only [except_ok_bind]
  rw [parseGpart_mkGpart2 hE1d hE2d hE1 hE2, parseGpart_mkGpart hE2d hE2]

/-- Witness for C10: the first newfs line's `-s 1000 -f 512` and the
first `freebsd-ufs` size 1000 are ignored in favour of the second
line's values. -/
theorem ufs_precheck_last_match_wins_witness :
    _can_skip_resize_ufs (fun _ => mkDumpfs2 "1000" "512" "58719232" "4096")
      (fun _ => mkGpart2 "1000" "58719232") "/" "/dev/da0p2"
    = _can_skip_resize_ufs (fun _ => mkDumpfs "58719232" "4096")
      (fun _ => mkGpart "58719232") "/" "/dev/da0p2" :=
  @ufs_precheck_last_match_wins "1000" "512" "58719232" "4096" "1000" "58719232"
    1000 512 58719232 4096 1000 58719232
    (by decide) (by decide) (by decide) (by decide) (by decide) (by decide)
    (by decide) (by decide) (by decide) (by decide) (by decide) (by decide)

/-- C3: when the device path does not match `^(/dev/.+)p([0-9])$`, the
UFS pre-check raises (`m.group(1)` on `None`) before consulting the
partition table: the result does not depend on the gpart collaborator at
all, and it is never a skip. -/
theorem ufs_precheck_bad_devpath {devpth : String} (h : matchDiskPart devpth = none)
    (dumpfsOf : String → String) (mp : String) :
    (∀ g g' : String → String,
      _can_skip_resize_ufs dumpfsOf g mp devpth = _can_skip_resize_ufs dumpfsOf g' mp devpth)
    ∧ ∀ g : String → String, _can_skip_resize_ufs dumpfsOf g mp devpth ≠ .ok true := by
  have key : ∀ g : String → String, _can_skip_resize_ufs dumpfsOf g mp devpth =
      (match parseNewfsLines (pySplitlines (dumpfsOf mp)) with
       | .error e => (.error e : Except PyErr Bool)
       | .ok _ => .error .attributeError) := by
    intro g
    unfold _can_skip_resize_ufs
    cases hp : parseNewfsLines (pySplitlines (dumpfsOf mp)) with
    | error e => rfl
    | ok st =>
      obtain ⟨cur, frag⟩ := st
      simp [except_ok_bind, h]
  constructor
  · intro g g'
    rw [key g, key g']
  · intro g hc
    rw [key g] at hc
    cases hp : parseNewfsLines (pySplitlines (dumpfsOf mp)) with
    | error e => rw [hp] at hc; exact absurd hc (by simp)
    | ok st => rw [hp] at hc; exact absurd hc (by simp)

/-- Witness for C3 at `/dev/sda1` (no trailing `p<digit>` suffix): the
pre-check result ignores the gpart collaborator and is not a skip. -/
theorem ufs_precheck_bad_devpath_witness :
    (_can_skip_resize_ufs (fun _ => mkDumpfs "58719232" "4096") (fun _ => "AAA") "/"
        "/dev/sda1"
      = _can_skip_resize_ufs (fun _ => mkDumpfs "58719232" "4096") (fun _ => "BBB") "/"
        "/dev/sda1")
    ∧ _can_skip_resize_ufs (fun _ => mkDumpfs "58719232" "4096") (fun _ => "AAA") "/"
        "/dev/sda1" ≠ .ok true := by
  have h := @ufs_precheck_bad_devpath "/dev/sda1" (by decide)
    (fun _ => mkDumpfs "58719232" "4096") "/"
  exact ⟨h.1 (fun _ => "AAA") (fun _ => "BBB"), h.2 (fun _ => "AAA")⟩

theorem startsWith_distinct_head {s p q : String} {c d : Char} {tp tq : List Char}
    (hp : p.data = c :: tp) (hq : q.data = d :: tq) (hcd : c ≠ d)
    (h : pyStartsWith s p = true) : pyStartsWith s q = false := by
  cases hres : pyStartsWith s q
  · rfl
  · obtain ⟨u, hu⟩ := pyStartsWith_head hp h
    obtain ⟨v, hv⟩ := pyStartsWith_head hq hres
    rw [hu] at hv
    injection hv with h1 _
    exact absurd h1 hcd

/-- C4: dispatch on the lower-cased filesystem type picks the first
rule of the ordered list whose key is a prefix of the type (the four
keys begin with distinct letters, so at most one matches), building the
documented command; `ext4`/`ext3`/`ext2` all select the `resize2fs`
rule, and a type matching no key selects nothing. -/
theorem resize_dispatch_prefix_rules (ft mp dev : String) :
    (pyStartsWith (pyLower ft) "btrfs" = true →
      (selectResizer ft).map (fun r => r.2 mp dev) =
        some ["btrfs", "filesystem", "resize", "max", mp])
    ∧ (pyStartsWith (pyLower ft) "ext" = true →
      (selectResizer ft).map (fun r => r.2 mp dev) = some ["resize2fs", dev])
    ∧ (pyStartsWith (pyLower ft) "xfs" = true →
      (selectResizer ft).map (fun r => r.2 mp dev) = some ["xfs_growfs", dev])
    ∧ (pyStartsWith (pyLower ft) "ufs" = true →
      (selectResizer ft).map (fun r => r.2 mp dev) = some ["growfs", dev])
    ∧ (pyStartsWith (pyLower ft) "btrfs" = false → pyStartsWith (pyLower ft) "ext" = false →
       pyStartsWith (pyLower ft) "xfs" = false → pyStartsWith (pyLower ft) "ufs" = false →
      selectResizer ft = none)
    ∧ selectResizer "ext4" = some ("ext", _resize_ext)
    ∧ selectResizer "ext3" = some ("ext", _resize_ext)
    ∧ selectResizer "ext2" = some ("ext", _resize_ext) := by
  refine ⟨?_, ?_, ?_, ?_, ?_, rfl, rfl, rfl⟩
  · intro h
    simp [selectResizer, RESIZE_FS_PREFIXES_CMDS, List.find?, h, _resize_btrfs]
  · intro h
    have hb : pyStartsWith (pyLower ft) "btrfs" = false :=
      startsWith_distinct_head rfl rfl (by decide) h
    simp [selectResizer, RESIZE_FS_PREFIXES_CMDS, List.find?, h, hb, _resize_ext]
  · intro h
    have hb : pyStartsWith (pyLower ft) "btrfs" = false :=
      startsWith_distinct_head rfl rfl (by decide) h
    have he : pyStartsWith (pyLower ft) "ext" = false :=
      startsWith_distinct_head rfl rfl (by decide) h
    simp [selectResizer, RESIZE_FS_PREFIXES_CMDS, List.find?, h, hb, he, _resize_xfs]
  · intro h
    have hb : pyStartsWith (pyLower ft) "btrfs" = false :=
      startsWith_distinct_head rfl rfl (by decide) h
    have he : pyStartsWith (pyLower ft) "ext" = false :=
      startsWith_distinct_head rfl rfl (by decide) h
    have hx : pyStartsWith (pyLower ft) "xfs" = false :=
      startsWith_distinct_head rfl rfl (by decide) h
    simp [selectResizer, RESIZE_FS_PREFIXES_CMDS, List.find?, h, hb, he, hx, _resize_ufs]
  · intro h1 h2 h3 h4
    simp [selectResizer, RESIZE_FS_PREFIXES_CMDS, List.find?, h1, h2, h3, h4]

/-- Witness for C4: `ext4` builds `resize2fs /dev/sda1`; `vfat`
matches no rule. -/
theorem resize_dispatch_prefix_rules_witness :
    (selectResizer "ext4").map (fun r => r.2 "/" "/dev/sda1") = some ["resize2fs", "/dev/sda1"]
    ∧ selectResizer "vfat" = none := by
  have h := resize_dispatch_prefix_rules "ext4" "/" "/dev/sda1"
  have h2 := resize_dispatch_prefix_rules "vfat" "/" "/dev/sda1"
  exact ⟨h.2.1 (by decide), h2.2.2.2.2.1 (by decide) (by decide) (by decide) (by decide)⟩

theorem isPrefixOf_append_self (l m : List Char) : l.isPrefixOf (l ++ m) = true := by
  induction l with
  | nil => simp
  | cons c t ih => simp [List.isPrefixOf, ih]

theorem startsWith_append_self (p v : String) : pyStartsWith (p ++ v) p = true := by
  unfold pyStartsWith
  rw [data_append]
  exact isPrefixOf_append_self _ _

theorem pyDrop_root (v : String) : pyDrop ("root=" ++ v) 5 = v := mk_data v

theorem pyDrop_label (n : String) : pyDrop ("LABEL=" ++ n) 6 = n := mk_data n

theorem pyDrop_uuid (n : String) : pyDrop ("UUID=" ++ n) 5 = n := mk_data n

/-- C5: `rootdev_from_cmdline` maps the first `root=` token per the
documented table — `/dev/...` unchanged, `LABEL=` and `UUID=` to the
by-label / by-uuid paths, anything else prefixed with `/dev/` — and
yields nothing when no token starts with `root=`. -/
theorem rootdev_mapping (cmdline : String) :
    ((∀ t ∈ pySplit cmdline, pyStartsWith t "root=" = false) →
      rootdev_from_cmdline cmdline = none)
    ∧ ∀ pre v post, pySplit cmdline = pre ++ ("root=" ++ v) :: post →
      (∀ t ∈ pre, pyStartsWith t "root=" = false) →
      ((pyStartsWith v "/dev/" = true → rootdev_from_cmdline cmdline = some v)
       ∧ (∀ n, v = "LABEL=" ++ n →
           rootdev_from_cmdline cmdline = some ("/dev/disk/by-label/" ++ n))
       ∧ (∀ n, v = "UUID=" ++ n →
           rootdev_from_cmdline cmdline = some ("/dev/disk/by-uuid/" ++ n))
       ∧ (pyStartsWith v "/dev/" = false → pyStartsWith v "LABEL=" = false →
          pyStartsWith v "UUID=" = false →
           rootdev_from_cmdline cmdline = some ("/dev/" ++ v))) := by
  constructor
  · intro h
    have hnone : (pySplit cmdline).find? (fun tok => pyStartsWith tok "root=") = none := by
      rw [List.find?_eq_none]
      intro t ht
      simp [h t ht]
    unfold rootdev_from_cmdline
    rw [hnone]
  · intro pre v post hsplit hpre
    have hfind : (pySplit cmdline).find? (fun tok => pyStartsWith tok "root=")
        = some ("root=" ++ v) := by
      rw [hsplit]
      exact find?_append_cons _ pre post _ hpre (startsWith_append_self "root=" v)
    refine ⟨?_, ?_, ?_, ?_⟩
    · intro hdev
      unfold rootdev_from_cmdline
      rw [hfind]
      simp [pyDrop_root, hdev]
    · intro n hn
      subst hn
      have h1 : pyStartsWith ("LABEL=" ++ n) "LABEL=" = true :=
        startsWith_append_self "LABEL=" n
      have h2 : pyStartsWith ("LABEL=" ++ n) "/dev/" = false :=
        startsWith_distinct_head rfl rfl (by decide) h1
      unfold rootdev_from_cmdline
      rw [hfind]
      simp [pyDrop_root, h1, h2, pyDrop_label]
    · intro n hn
      subst hn
      have h1 : pyStartsWith ("UUID=" ++ n) "UUID=" = true :=
        startsWith_append_self "UUID=" n
      have h2 : pyStartsWith ("UUID=" ++ n) "/dev/" = false :=
        startsWith_distinct_head rfl rfl (by decide) h1
      have h3 : pyStartsWith ("UUID=" ++ n) "LABEL=" = false :=
        startsWith_distinct_head rfl rfl (by decide) h1
      unfold rootdev_from_cmdline
      rw [hfind]
      simp [pyDrop_root, h1, h2, h3, pyDrop_uuid]
    · intro p1 p2 p3
      unfold rootdev_from_cmdline
      rw [hfind]
      simp [pyDrop_root, p1, p2, p3]

/-- Witness for C5: `root=LABEL=rootfs` resolves to the by-label path;
a command line with no `root=` token resolves to nothing. -/
theorem rootdev_mapping_witness :
    rootdev_from_cmdline "ro root=LABEL=rootfs quiet" = some "/dev/disk/by-label/rootfs"
    ∧ rootdev_from_cmdline "ro quiet" = none := by
  constructor
  · have h := (rootdev_mapping "ro root=LABEL=rootfs quiet").2 ["ro"] "LABEL=rootfs"
      ["quiet"] (by decide) (by decide)
    exact h.2.1 "rootfs" (by decide)
  · exact (rootdev_mapping "ro quiet").1 (by decide)

/-- C9: with several `root=` tokens, the resolver's result is the
mapping of the first one; the later tokens are ignored. -/
theorem rootdev_first_token_wins (cmdline : String) (pre : List String) (v : String)
    (post : List String) (t2 : String)
    (hsplit : pySplit cmdline = pre ++ ("root=" ++ v) :: post)
    (hpre : ∀ t ∈ pre, pyStartsWith t "root=" = false)
    (_ht2 : t2 ∈ post) (_ht2root : pyStartsWith t2 "root=" = true) :
    rootdev_from_cmdline cmdline = some (mapRootValue v) := by
  have hfind : (pySplit cmdline).find? (fun tok => pyStartsWith tok "root=")
      = some ("root=" ++ v) := by
    rw [hsplit]
    exact find?_append_cons _ pre post _ hpre (startsWith_append_self "root=" v)
  unfold rootdev_from_cmdline mapRootValue
  rw [hfind]
  simp only [pyDrop_root]
  split_ifs <;> rfl

/-- Witness for C9: of two `root=` tokens the first wins. -/
theorem rootdev_first_token_wins_witness :
    rootdev_from_cmdline "root=/dev/sda1 root=/dev/sdb2" = some "/dev/sda1" := by
  have h := rootdev_first_token_wins "root=/dev/sda1 root=/dev/sdb2" [] "/dev/sda1"
    ["root=/dev/sdb2"] "root=/dev/sdb2" (by decide) (by simp) (by decide) (by decide)
  rw [h]
  decide

/-- C8: the pre-check table has `ufs` as its only key, so any
filesystem type whose lower-cased form does not start with `ufs` gets no
registered pre-check and `can_skip_resize` returns false (do not
skip). -/
theorem can_skip_resize_default (dumpfsOf gpartOf : String → String)
    (ft resize_what devpth : String)
    (h : pyStartsWith (pyLower ft) "ufs" = false) :
    can_skip_resize dumpfsOf gpartOf ft resize_what devpth = .ok false := by
  unfold can_skip_resize RESIZE_FS_PRECHECK_CMDS
  simp [List.find?, h]

/-- Witness for C8: an `ext4` filesystem has no registered pre-check and
proceeds to resize. -/
theorem can_skip_resize_default_witness :
    can_skip_resize (fun _ => "") (fun _ => "") "ext4" "/" "/dev/sda1" = .ok false :=
  can_skip_resize_default (fun _ => "") (fun _ => "") "ext4" "/" "/dev/sda1" (by decide)

/-- C6: when `os.stat` on the device fails with `ENOENT`, `handle`
returns normally, logging the miss at debug level inside a container and
at warning level otherwise; any other `errno` re-raises the `OSError`,
which propagates out of `handle` in either context. -/
theorem handle_stat_error_policy (env : HandleEnv) (name dev ft mp : String)
    (h1 : translate_bool env.resize_root = true)
    (h2 : env.mount_info = some (dev, ft, mp))
    (h3 : dev ≠ "/dev/root") :
    (env.stat dev = .error ENOENT →
      handle env name =
        ([.resizeInfo dev mp "/",
          if env.container then LogEvent.devNotExistContainer dev
          else LogEvent.devNotExist dev], .ret)
      ∧ levelOf (if env.container then LogEvent.devNotExistContainer dev
          else LogEvent.devNotExist dev)
        = (if env.container then LogLevel.debug else LogLevel.warn))
    ∧ ∀ en, en ≠ ENOENT → env.stat dev = .error en →
      handle env name = ([.resizeInfo dev mp "/"], .raised (.osError en)) := by
  constructor
  · intro hstat
    constructor
    · cases hc : env.container <;>
        simp [handle, h1, h2, h3, hstat, hc]
    · cases hc : env.container <;> simp [hc, levelOf]
  · intro en hne hstat
    simp [handle, h1, h2, h3, hstat, hne]

/-- A concrete environment: enabled, `ext4` root on `/dev/sda1`, not in
a container, device missing (`stat` fails with `ENOENT`). -/
def envStat : HandleEnv :=
  { resize_root := .pyTrue
    mount_info := some ("/dev/sda1", "ext4", "/")
    container := false
    path_exists := fun _ => true
    cmdline := ""
    stat := fun _ => .error ENOENT
    access_w := fun _ => true
    dumpfsOf := fun _ => ""
    gpartOf := fun _ => ""
    runCmd := fun _ => true }

/-- Witness for C6: outside a container, a missing device stops `handle`
normally with a warning-level event. -/
theorem handle_stat_error_policy_witness :
    handle envStat "cc_resizefs" =
      ([.resizeInfo "/dev/sda1" "/" "/", .devNotExist "/dev/sda1"], .ret)
    ∧ levelOf (LogEvent.devNotExist "/dev/sda1") = .warn := by
  have h := (handle_stat_error_policy envStat "cc_resizefs" "/dev/sda1" "ext4" "/"
    rfl rfl (by decide)).1 rfl
  constructor
  · have h1 := h.1
    simpa using h1
  · rfl

/-- C7: `do_resize` re-raises a resize-command failure after logging it
with the full command line, and returns silently on success; in blocking
mode that failure propagates out of `handle` as the invocation's result,
while a success ends with the final "Resized" log. -/
theorem do_resize_blocking_failure (env : HandleEnv) (name dev ft mp key : String)
    (r : String → String → List String) (st : StatResult)
    (h1 : translate_bool env.resize_root = true)
    (hb : isNoblock env.resize_root = false)
    (h2 : env.mount_info = some (dev, ft, mp))
    (h3 : dev ≠ "/dev/root")
    (h4 : env.stat dev = .ok st)
    (h5 : env.access_w dev = true)
    (h6 : st.isBlk = true)
    (h7 : can_skip_resize env.dumpfsOf env.gpartOf ft "/" dev = .ok false)
    (h8 : selectResizer ft = some (key, r)) :
    (∀ run : List String → Bool, ∀ cmd, run cmd = false →
      do_resize run cmd = ([.failedResize cmd], some .processExecutionError))
    ∧ (∀ run : List String → Bool, ∀ cmd, run cmd = true → do_resize run cmd = ([], none))
    ∧ (env.runCmd (r "/" dev) = false →
      handle env name = ([.resizeInfo dev mp "/", .resizing "/" ft (r "/" dev),
        .failedResize (r "/" dev)], .raised .processExecutionError))
    ∧ (env.runCmd (r "/" dev) = true →
      handle env name = ([.resizeInfo dev mp "/", .resizing "/" ft (r "/" dev),
        .finalAction "Resized" ft], .ret)) := by
  refine ⟨?_, ?_, ?_, ?_⟩
  · intro run cmd hrun
    simp [do_resize, hrun]
  · intro run cmd hrun
    simp [do_resize, hrun]
  · intro hrun
    simp [handle, h1, hb, h2, h3, h4, h5, h6, h7, h8, do_resize, hrun]
  · intro hrun
    simp [handle, h1, hb, h2, h3, h4, h5, h6, h7, h8, do_resize, hrun]

/-- A concrete environment: enabled blocking mode, `ext4` root on
`/dev/sda1`, valid block device, resize command failing. -/
def envRun : HandleEnv :=
  { resize_root := .pyTrue
    mount_info := some ("/dev/sda1", "ext4", "/")
    container := false
    path_exists := fun _ => true
    cmdline := ""
    stat := fun _ => .ok { isBlk := true, isChr := false }
    access_w := fun _ => true
    dumpfsOf := fun _ => ""
    gpartOf := fun _ => ""
    runCmd := fun _ => false }

/-- Witness for C7: the failing `resize2fs /dev/sda1` run is logged with
its command line and the failure propagates out of `handle`. -/
theorem do_resize_blocking_failure_witness :
    handle envRun "cc_resizefs" =
      ([.resizeInfo "/dev/sda1" "/" "/", .resizing "/" "ext4" ["resize2fs", "/dev/sda1"],
        .failedResize ["resize2fs", "/dev/sda1"]], .raised .processExecutionError) := by
  have h := (do_resize_blocking_failure envRun "cc_resizefs" "/dev/sda1" "ext4" "/" "ext"
    _resize_ext { isBlk := true, isChr := false }
    rfl rfl rfl (by decide) rfl rfl rfl rfl rfl).2.2.1 rfl
  simpa using h
